import Mathlib

/-!
Verification of the rock-paper-scissors pattern-analysis and prediction
engine.  The definitions below are a shallow embedding of the TypeScript
sources `apps/server/src/ai/analyzer.ts` (class `PatternAnalyzer`), the
shared rule helpers (`getCounterMove`, `determineWinner`) and the
move-record construction inside `processMove` in `apps/server/src/index.ts`.

Modelling conventions:
* JavaScript numbers are modelled exactly: move counts as `ℕ`, strategy
  scores as `ℚ`, the entropy computation (which uses `Math.log2`) over `ℝ`.
  `Math.round x` is modelled as `⌊x + 1/2⌋`, which agrees with it on all
  non-negative arguments.
* `Math.random()*2 |> floor`, used only to index the two-element
  `alternatives` array of the win-stay strategy, is modelled by an explicit
  parameter `rnd : Fin 2`; the external Gemini text service is modelled by a
  parameter `gemini : Option String` (`none` covers a missing API key and a
  thrown service error, both of which land in the same `catch` block).
* The JavaScript expression `lastMoves[lastMoves.length - 1]` is modelled
  totally by `jsLast` (defaulting to `rock` on the empty list).  On a
  `PlayerPattern` whose `lastMoves` is empty while `totalMoves ≥ 2` the
  original code would fault on an `undefined` lookup; theorems about
  arbitrary patterns therefore carry the well-formedness hypothesis
  `p.lastMoves ≠ [] ∨ p.totalMoves < 2`, which holds for every pattern
  produced by `analyzePattern`.
-/

namespace RPS

/-- The three game symbols (`type GameChoice` in the shared package). -/
inductive GameChoice where
  | rock
  | paper
  | scissors
deriving DecidableEq, Repr, Fintype

open GameChoice

/-- Round outcome (`'player' | 'ai' | 'tie'`). -/
inductive Winner where
  | player
  | ai
  | tie
deriving DecidableEq, Repr

/-- `GAME_CHOICES = ['rock', 'paper', 'scissors']` from the shared package. -/
def GAME_CHOICES : List GameChoice := [rock, paper, scissors]

/-- The fields of `interface GameMove` used by the engine. -/
structure GameMove where
  playerId : String
  choice : GameChoice
  timestamp : ℕ
  aiPrediction : GameChoice
  aiChoice : GameChoice
  aiConfidence : ℤ
  correct : Bool
  winner : Winner
deriving DecidableEq, Repr

/-- `interface PlayerPattern`: the derived statistical summary.  The
`Record` objects of the source are modelled as functions out of
`GameChoice`. -/
@[ext]
structure PlayerPattern where
  frequencies : GameChoice → ℕ
  transitions : GameChoice → GameChoice → ℕ
  streaks : GameChoice → ℕ
  totalMoves : ℕ
  lastMoves : List GameChoice
  winRate : ℚ
  randomnessScore : ℤ

/-- `interface AIAnalysis`: the prediction result. -/
structure AIAnalysis where
  prediction : GameChoice
  confidence : ℤ
  reasoning : String
  patternType : String
deriving DecidableEq, Repr

/-- One strategy candidate `{ choice, score, type }` of `predictNextMove`. -/
structure Candidate where
  choice : GameChoice
  score : ℚ
  type : String
deriving DecidableEq, Repr

/-- JavaScript `list.slice(-n)`: the last `n` elements (all of them when the
list is shorter). -/
def jsSliceLast (n : ℕ) (l : List GameChoice) : List GameChoice :=
  l.drop (l.length - n)

/-- JavaScript `l[l.length - 1]`, made total with default `rock`; see the
well-formedness remark in the file header. -/
def jsLast (l : List GameChoice) : GameChoice :=
  l.getLastD rock

/-- `Math.round` on an exact rational, as used on the `ℚ`-valued scores. -/
def jsRound (q : ℚ) : ℤ := ⌊q + 1 / 2⌋

/-- `Math.round` on a real argument (the entropy computation). -/
noncomputable def jsRoundR (x : ℝ) : ℤ := ⌊x + 1 / 2⌋

/-- `calculateFrequencies`: a fold over the move list incrementing the
count of each seen symbol, starting from the all-zero record. -/
def calculateFrequencies (moves : List GameChoice) : GameChoice → ℕ :=
  moves.foldl (fun freqs move c => if c = move then freqs c + 1 else freqs c)
    (fun _ => 0)

/-- `calculateTransitions`: counts over all adjacent pairs
`(moves[i], moves[i+1])`. -/
def calculateTransitions (moves : List GameChoice) :
    GameChoice → GameChoice → ℕ :=
  (moves.zip moves.tail).foldl
    (fun tr pair a b => if a = pair.1 ∧ b = pair.2 then tr a b + 1 else tr a b)
    (fun _ _ => 0)

/-- The streak-record update of `analyzePattern`: record `n` against `c`
only when it strictly exceeds the stored maximum. -/
def streaksUpdate (s : GameChoice → ℕ) (c : GameChoice) (n : ℕ) :
    GameChoice → ℕ :=
  if s c < n then fun x => if x = c then n else s x else s

/-- The scan loop of the streak computation: walks the tail of the choice
list keeping the previous symbol and the current run length, recording a
run when it breaks; returns the record together with the final symbol and
run length (for the post-loop update). -/
def streaksGo : GameChoice → ℕ → List GameChoice → (GameChoice → ℕ) →
    (GameChoice → ℕ) × GameChoice × ℕ
  | prev, cur, [], s => (s, prev, cur)
  | prev, cur, c :: cs, s =>
    if c = prev then streaksGo prev (cur + 1) cs s
    else streaksGo c 1 cs (streaksUpdate s prev cur)

/-- The streak computation of `analyzePattern` (lines 71-91): the scan loop
followed by the final update with the last run. -/
def calculateStreaks (choices : List GameChoice) : GameChoice → ℕ :=
  match choices with
  | [] => fun _ => 0
  | c :: cs =>
    let r := streaksGo c 1 cs (fun _ => 0)
    streaksUpdate r.1 r.2.1 r.2.2

/-- `calculateRandomness`: normalized Shannon entropy of the frequency
distribution, scaled to 0-100 and rounded; `100` on an empty history.
Zero-probability symbols are skipped by the `probability > 0` guard. -/
noncomputable def calculateRandomness (pattern : PlayerPattern) : ℤ :=
  if pattern.totalMoves = 0 then 100
  else
    let entropy := GAME_CHOICES.foldl (fun acc choice =>
      let probability :=
        (pattern.frequencies choice : ℝ) / (pattern.totalMoves : ℝ)
      if 0 < probability then acc - probability * Real.logb 2 probability
      else acc) 0
    jsRoundR (entropy / Real.logb 2 3 * 100)

/-- `analyzePattern`: derives the `PlayerPattern` summary from a move
history.  The pattern is first built with `randomnessScore := 0` and then
updated, exactly as in the source. -/
noncomputable def analyzePattern (moves : List GameMove) : PlayerPattern :=
  let choices := moves.map (fun m => m.choice)
  let pattern : PlayerPattern :=
    { frequencies := calculateFrequencies choices
      transitions := calculateTransitions choices
      streaks := calculateStreaks choices
      totalMoves := moves.length
      lastMoves := jsSliceLast 10 choices
      winRate := ((moves.filter (fun m => !m.correct)).length : ℚ) /
        ((max moves.length 1 : ℕ) : ℚ)
      randomnessScore := 0 }
  { pattern with randomnessScore := calculateRandomness pattern }

/-- Strategy 1 (frequency): the first symbol attaining the maximal
frequency, fixed score 0.3. -/
def frequencyCandidate (p : PlayerPattern) : Candidate :=
  let maxFreq := max (max (p.frequencies rock) (p.frequencies paper))
    (p.frequencies scissors)
  let favoriteChoice :=
    (GAME_CHOICES.find? (fun c => p.frequencies c == maxFreq)).getD rock
  { choice := favoriteChoice, score := 3 / 10, type := "frequency" }

/-- Strategy 2 (transition): the argmax of the conditional distribution
after the most recent symbol, score = that probability times 0.5; skipped
when the row sum is zero. -/
def transitionCandidates (p : PlayerPattern) : List Candidate :=
  let lastMove := jsLast p.lastMoves
  let row := p.transitions lastMove
  let totalTransitions := row rock + row paper + row scissors
  if 0 < totalTransitions then
    let best := GAME_CHOICES.foldl (fun acc choice =>
      let prob := (row choice : ℚ) / (totalTransitions : ℚ)
      if acc.1 < prob then (prob, choice) else acc) ((0 : ℚ), rock)
    [{ choice := best.2, score := best.1 * (1 / 2), type := "sequential" }]
  else []

/-- Strategy 3 (meta / anti-pattern): the least used symbol at fixed score
0.4, only when `randomnessScore > 70`. -/
def metaCandidates (p : PlayerPattern) : List Candidate :=
  if 70 < p.randomnessScore then
    let minFreq := min (min (p.frequencies rock) (p.frequencies paper))
      (p.frequencies scissors)
    let leastUsed :=
      (GAME_CHOICES.find? (fun c => p.frequencies c == minFreq)).getD scissors
    [{ choice := leastUsed, score := 2 / 5, type := "meta" }]
  else []

/-- Strategy 4 (win-stay/lose-shift): when the last two choices coincide,
a draw (indexed by `rnd`) among the other two symbols at score 0.35. -/
def winStayCandidates (p : PlayerPattern) (rnd : Fin 2) : List Candidate :=
  if 2 ≤ p.lastMoves.length then
    let lastPlayerMove := jsLast p.lastMoves
    let secondLastMove := p.lastMoves.getD (p.lastMoves.length - 2) rock
    if lastPlayerMove = secondLastMove then
      let alternatives := GAME_CHOICES.filter (fun c => c != lastPlayerMove)
      let switchPrediction := alternatives.getD rnd rock
      [{ choice := switchPrediction, score := 7 / 20, type := "psychological" }]
    else []
  else []

/-- Strategy 5 (rotation detection): fires only on the two hard-coded
3-sequences, score 0.6. -/
def rotationCandidates (p : PlayerPattern) : List Candidate :=
  if 3 ≤ p.lastMoves.length then
    let sequence := jsSliceLast 3 p.lastMoves
    if sequence = [rock, paper, scissors] then
      [{ choice := rock, score := 3 / 5, type := "sequential" }]
    else if sequence = [scissors, rock, paper] then
      [{ choice := scissors, score := 3 / 5, type := "sequential" }]
    else []
  else []

/-- The `predictions` array of `predictNextMove`, in strategy-declaration
order 1-5. -/
def predictions (p : PlayerPattern) (rnd : Fin 2) : List Candidate :=
  [frequencyCandidate p] ++ transitionCandidates p ++ metaCandidates p ++
    winStayCandidates p rnd ++ rotationCandidates p

/-- The fallback candidate `predictions[0] || {rock, 0.33, frequency}`. -/
def defaultCandidate : Candidate :=
  { choice := rock, score := 33 / 100, type := "frequency" }

/-- The selection scan of `predictNextMove`: start from the first candidate
(or the default on an empty list) and replace only on strict score
improvement. -/
def selectBest (l : List Candidate) : Candidate :=
  l.foldl (fun best pred => if best.score < pred.score then pred else best)
    (l.headD defaultCandidate)

/-- The string name of a symbol, as interpolated into the rationale. -/
def choiceName : GameChoice → String
  | rock => "rock"
  | paper => "paper"
  | scissors => "scissors"

/-- The `fallbackReasons` lookup of the `catch` block, keyed by the winning
pattern-type tag, with the generic `I predict ...!` default. -/
def fallbackReason (patternType : String) (prediction lastMove : GameChoice) :
    String :=
  if patternType = "frequency" then
    "You love playing " ++ choiceName prediction ++ " - it\x27s your go-to move!"
  else if patternType = "sequential" then
    "Following your pattern, " ++ choiceName prediction ++ " comes next."
  else if patternType = "meta" then
    "You\x27re being unpredictable, but I think " ++ choiceName prediction ++
      " is due!"
  else if patternType = "psychological" then
    "After " ++ choiceName lastMove ++ ", players often switch to " ++
      choiceName prediction ++ "."
  else if patternType = "complex" then
    "Your complex pattern points to " ++ choiceName prediction ++ "."
  else "I predict " ++ choiceName prediction ++ "!"

/-- `predictNextMove`: cold-start short-circuit below two moves, otherwise
the five strategies, the selection scan, the clamped confidence, and the
rationale text (external service on success, canned template in the
`catch` block). -/
def predictNextMove (p : PlayerPattern) (rnd : Fin 2) (gemini : Option String) :
    AIAnalysis :=
  if p.totalMoves < 2 then
    { prediction := rock, confidence := 35,
      reasoning := "Most players start with rock. It\x27s a classic opening move!",
      patternType := "psychological" }
  else
    let bestPrediction := selectBest (predictions p rnd)
    let prediction := bestPrediction.choice
    let confidence := min (jsRound (bestPrediction.score * 100)) 85
    let patternType := bestPrediction.type
    match gemini with
    | some text =>
      let reasoning := text.trim
      { prediction := prediction, confidence := confidence,
        reasoning :=
          if reasoning = "" then
            "I sense you\x27ll play " ++ choiceName prediction ++ " next!"
          else reasoning,
        patternType := patternType }
    | none =>
      { prediction := prediction, confidence := confidence,
        reasoning := fallbackReason patternType prediction (jsLast p.lastMoves),
        patternType := patternType }

/-- The base64 alphabet of `Buffer.toString('base64')`. -/
def base64Chars : List Char :=
  "ABCDEFGHIJKLMNOPQRSTUVWXYZabcdefghijklmnopqrstuvwxyz0123456789+/".toList

/-- The base64 digit for a 6-bit value. -/
def base64Char (n : ℕ) : Char := base64Chars.getD n 'A'

/-- Standard base64 encoding of a byte list, three bytes to four digits,
padded with `=`. -/
def base64Go : List ℕ → List Char
  | [] => []
  | [a] => [base64Char (a / 4), base64Char (a % 4 * 16), '=', '=']
  | [a, b] =>
    [base64Char (a / 4), base64Char (a % 4 * 16 + b / 16),
      base64Char (b % 16 * 4), '=']
  | a :: b :: c :: rest =>
    base64Char (a / 4) :: base64Char (a % 4 * 16 + b / 16) ::
      base64Char (b % 16 * 4 + c / 64) :: base64Char (c % 64) :: base64Go rest

/-- `Buffer.from(key).toString('base64')` on the UTF-8 bytes of `key`. -/
def base64Encode (bytes : List ℕ) : String := String.mk (base64Go bytes)

/-- `generatePatternHash`: base64 of the last five symbol names joined,
a dash, and the total move count. -/
def generatePatternHash (p : PlayerPattern) : String :=
  let key := String.join ((jsSliceLast 5 p.lastMoves).map choiceName) ++ "-" ++
    toString p.totalMoves
  base64Encode (key.toUTF8.toList.map (fun b => b.toNat))

/-- `GAME_RULES`: what each symbol beats. -/
def GAME_RULES : GameChoice → GameChoice
  | rock => scissors
  | paper => rock
  | scissors => paper

/-- `Object.entries(GAME_RULES)` in insertion order. -/
def gameRulesEntries : List (GameChoice × GameChoice) :=
  [(rock, scissors), (paper, rock), (scissors, paper)]

/-- `getCounterMove`: the first rule entry whose beaten symbol is the given
choice, defaulting to rock. -/
def getCounterMove (choice : GameChoice) : GameChoice :=
  ((gameRulesEntries.find? (fun e => e.2 == choice)).map (fun e => e.1)).getD rock

/-- `determineWinner` over the 3-cycle. -/
def determineWinner (playerChoice aiChoice : GameChoice) : Winner :=
  if playerChoice = aiChoice then Winner.tie
  else if GAME_RULES playerChoice = aiChoice then Winner.player
  else Winner.ai

/-- The move-record construction inside `processMove` (index.ts lines
429-447): correctness flag, AI counter-play and round winner. -/
def processMoveRecord (playerId : String) (choice : GameChoice)
    (timestamp : ℕ) (aiPrediction : GameChoice) (aiConfidence : ℤ) : GameMove :=
  let correct := aiPrediction == choice
  let aiChoice := getCounterMove aiPrediction
  let winner := determineWinner choice aiChoice
  { playerId := playerId, choice := choice, timestamp := timestamp,
    aiPrediction := aiPrediction, aiChoice := aiChoice,
    aiConfidence := aiConfidence, correct := correct, winner := winner }

/-- A move record carrying a given choice (the other fields are irrelevant
to the analyzer except `correct`, set to `true`). -/
def exampleMove (c : GameChoice) : GameMove :=
  { playerId := "p1", choice := c, timestamp := 0, aiPrediction := rock,
    aiChoice := paper, aiConfidence := 35, correct := true, winner := Winner.ai }

/-- The history `[rock, paper, scissors, rock, paper, scissors]` of the
rotation test property. -/
def exampleMoves : List GameMove :=
  [exampleMove rock, exampleMove paper, exampleMove scissors,
    exampleMove rock, exampleMove paper, exampleMove scissors]

/-- The pattern `analyzePattern` derives from `exampleMoves` (proved below). -/
def examplePattern : PlayerPattern :=
  { frequencies := fun _ => 2,
    transitions := fun a b =>
      match a, b with
      | rock, paper => 2
      | paper, scissors => 2
      | scissors, rock => 1
      | _, _ => 0,
    streaks := fun _ => 1,
    totalMoves := 6,
    lastMoves := [rock, paper, scissors, rock, paper, scissors],
    winRate := 0,
    randomnessScore := 100 }

/-! ### Helper lemmas -/

lemma calculateFrequencies_foldl (l : List GameChoice) (acc : GameChoice → ℕ)
    (c : GameChoice) :
    l.foldl (fun freqs move x => if x = move then freqs x + 1 else freqs x)
      acc c = acc c + l.count c := by
  induction l generalizing acc with
  | nil => simp
  | cons m t ih =>
    simp only [List.foldl_cons, ih, List.count_cons]
    by_cases h : c = m
    · simp [h]; omega
    · have h' : ¬ (m == c) = true := by
        simpa [beq_iff_eq] using fun hmc => h hmc.symm
      simp [h, h']

lemma calculateFrequencies_count (l : List GameChoice) (c : GameChoice) :
    calculateFrequencies l c = l.count c := by
  simpa using calculateFrequencies_foldl l (fun _ => 0) c

lemma count_three_eq_length (l : List GameChoice) :
    l.count GameChoice.rock + l.count GameChoice.paper +
      l.count GameChoice.scissors = l.length := by
  induction l with
  | nil => simp
  | cons c t ih => cases c <;> simp [List.count_cons] <;> omega

/-! ### Claim theorems -/

/-- C1: for every `PlayerPattern` with `totalMoves < 2`, `predictNextMove`
returns exactly the cold-start analysis (rock, confidence 35, psychological,
canned rationale), whatever the rest of the pattern, the random draw and the
external service outcome. -/
theorem predictNextMove_coldStart (p : PlayerPattern) (rnd : Fin 2)
    (gemini : Option String) (h : p.totalMoves < 2) :
    predictNextMove p rnd gemini =
      { prediction := rock, confidence := 35,
        reasoning := "Most players start with rock. It\x27s a classic opening move!",
        patternType := "psychological" } := by
  simp [predictNextMove, h]

/-- Witness for C1: a one-move history whose single move is paper still gets
the rock cold-start prediction. -/
theorem predictNextMove_coldStart_witness :
    predictNextMove
      { frequencies := fun _ => 0, transitions := fun _ _ => 0,
        streaks := fun _ => 0, totalMoves := 1, lastMoves := [paper],
        winRate := 0, randomnessScore := 0 } 0 none =
      { prediction := rock, confidence := 35,
        reasoning := "Most players start with rock. It\x27s a classic opening move!",
        patternType := "psychological" } :=
  predictNextMove_coldStart _ 0 none (by decide)

/-- C10: `getCounterMove c` is the unique symbol beating `c` in the 3-cycle,
so `determineWinner c (getCounterMove c) = ai`; consequently a move record
built by `processMove` with a correct prediction has round winner `ai`. -/
theorem counterMove_beats :
    (∀ c, determineWinner c (getCounterMove c) = Winner.ai) ∧
    (∀ c d, determineWinner c d = Winner.ai ↔ d = getCounterMove c) ∧
    ∀ (pid : String) (ts : ℕ) (conf : ℤ) (choice aiPrediction : GameChoice),
      aiPrediction = choice →
      (processMoveRecord pid choice ts aiPrediction conf).correct = true ∧
      (processMoveRecord pid choice ts aiPrediction conf).winner = Winner.ai := by
  refine ⟨by decide, by decide, ?_⟩
  intro pid ts conf choice aiPrediction h
  subst h
  cases aiPrediction <;> simp [processMoveRecord] <;> decide

/-- Witness for C10: a concrete correct-prediction round is won by the AI. -/
theorem counterMove_beats_witness :
    (processMoveRecord "alice" GameChoice.paper 7 GameChoice.paper 60).correct
        = true ∧
      (processMoveRecord "alice" GameChoice.paper 7 GameChoice.paper 60).winner
        = Winner.ai :=
  counterMove_beats.2.2 "alice" 7 60 GameChoice.paper GameChoice.paper rfl

/-- C9: `generatePatternHash` depends only on the last five entries of
`lastMoves` and on `totalMoves`; two patterns agreeing there receive the
identical hash whatever their other fields. -/
theorem generatePatternHash_det (p q : PlayerPattern)
    (h5 : jsSliceLast 5 p.lastMoves = jsSliceLast 5 q.lastMoves)
    (ht : p.totalMoves = q.totalMoves) :
    generatePatternHash p = generatePatternHash q := by
  simp only [generatePatternHash, h5, ht]

/-- Witness for C9: two patterns with different frequencies, streaks, win
rates and sixth-from-last moves but the same tail-5 window and move count
hash identically. -/
theorem generatePatternHash_det_witness :
    generatePatternHash
      { frequencies := fun _ => 3, transitions := fun _ _ => 1,
        streaks := fun _ => 2, totalMoves := 7,
        lastMoves := [rock, rock, paper, scissors, rock, paper, scissors],
        winRate := 1 / 2, randomnessScore := 90 } =
    generatePatternHash
      { frequencies := fun _ => 0, transitions := fun _ _ => 0,
        streaks := fun _ => 0, totalMoves := 7,
        lastMoves := [scissors, paper, scissors, rock, paper, scissors],
        winRate := 0, randomnessScore := 0 } :=
  generatePatternHash_det _ _ (by decide) (by decide)

/-- C5: for every history, the three frequency counts of the analyzed
pattern sum to `totalMoves`, which is the length of the history. -/
theorem frequencies_sum (moves : List GameMove) :
    (analyzePattern moves).frequencies rock +
        (analyzePattern moves).frequencies paper +
        (analyzePattern moves).frequencies scissors =
      (analyzePattern moves).totalMoves ∧
    (analyzePattern moves).totalMoves = moves.length := by
  have hf : (analyzePattern moves).frequencies =
      calculateFrequencies (moves.map (fun m => m.choice)) := rfl
  have ht : (analyzePattern moves).totalMoves = moves.length := rfl
  rw [hf, ht]
  refine ⟨?_, rfl⟩
  simp only [calculateFrequencies_count]
  rw [count_three_eq_length, List.length_map]

lemma winStayCandidates_eq (p : PlayerPattern) (rnd : Fin 2)
    (h2 : 2 ≤ p.lastMoves.length)
    (heq : jsLast p.lastMoves = p.lastMoves.getD (p.lastMoves.length - 2) rock) :
    winStayCandidates p rnd =
      [{ choice := (GAME_CHOICES.filter
            (fun c => c != jsLast p.lastMoves)).getD rnd rock,
         score := 7 / 20, type := "psychological" }] := by
  simp [winStayCandidates, h2, heq]

lemma winStayCandidates_ne (p : PlayerPattern) (rnd : Fin 2)
    (h2 : 2 ≤ p.lastMoves.length)
    (hne : jsLast p.lastMoves ≠ p.lastMoves.getD (p.lastMoves.length - 2) rock) :
    winStayCandidates p rnd = [] := by
  simp [winStayCandidates, h2]
  exact fun h => hne (by simpa [List.getD] using h)

/-- C7: when the recency window has length at least 2 and its last two
entries agree, the win-stay/lose-shift strategy contributes, for each value
of the random index, exactly one candidate at score 0.35 with tag
psychological whose symbol differs from the repeated one; every such symbol
is reached by exactly one random index (a uniform draw over the two
alternatives, reproducible from the index); when the last two entries
differ the strategy contributes nothing. -/
theorem winStay_spec (p : PlayerPattern) (h2 : 2 ≤ p.lastMoves.length) :
    (jsLast p.lastMoves = p.lastMoves.getD (p.lastMoves.length - 2) rock →
      (∀ rnd : Fin 2, ∃ c, winStayCandidates p rnd =
          [{ choice := c, score := 7 / 20, type := "psychological" }] ∧
          c ≠ jsLast p.lastMoves) ∧
      (∀ c, c ≠ jsLast p.lastMoves →
        ∃! rnd : Fin 2, winStayCandidates p rnd =
          [{ choice := c, score := 7 / 20, type := "psychological" }])) ∧
    (jsLast p.lastMoves ≠ p.lastMoves.getD (p.lastMoves.length - 2) rock →
      ∀ rnd : Fin 2, winStayCandidates p rnd = []) := by
  constructor
  · intro heq
    constructor
    · intro rnd
      rw [winStayCandidates_eq p rnd h2 heq]
      refine ⟨(GAME_CHOICES.filter (fun c => c != jsLast p.lastMoves)).getD rnd
        rock, rfl, ?_⟩
      rcases hcL : jsLast p.lastMoves <;> fin_cases rnd <;> decide
    · intro c hc
      have key : ∀ rnd : Fin 2, winStayCandidates p rnd =
          [{ choice := (GAME_CHOICES.filter
                (fun x => x != jsLast p.lastMoves)).getD rnd rock,
             score := 7 / 20, type := "psychological" }] :=
        fun rnd => winStayCandidates_eq p rnd h2 heq
      rcases hcL : jsLast p.lastMoves with _ | _ | _ <;>
        rw [hcL] at key hc <;>
        rcases c with _ | _ | _ <;>
        first
          | exact absurd rfl hc
          | (simp [key, ExistsUnique, Fin.exists_fin_two, Fin.forall_fin_two,
              GAME_CHOICES, List.filter, List.getD]; decide)
  · intro hne rnd
    exact winStayCandidates_ne p rnd h2 hne

/-- Witness for C7: on the recency window `[rock, rock]`, random index 0
draws paper and no index draws rock. -/
theorem winStay_spec_witness :
    ∃ c, winStayCandidates
        { frequencies := fun _ => 0, transitions := fun _ _ => 0,
          streaks := fun _ => 0, totalMoves := 2, lastMoves := [rock, rock],
          winRate := 0, randomnessScore := 0 } 0 =
        [{ choice := c, score := 7 / 20, type := "psychological" }] ∧
      c ≠ jsLast [rock, rock] :=
  ((winStay_spec _ (by decide)).1 (by decide)).1 0

lemma foldl_select_spec (t : List Candidate) (a : Candidate) :
    (t.foldl (fun best pred =>
        if best.score < pred.score then pred else best) a = a ∧
      ∀ x ∈ t, x.score ≤ a.score) ∨
    ∃ i, ∃ hi : i < t.length,
      t.foldl (fun best pred =>
        if best.score < pred.score then pred else best) a = t.get ⟨i, hi⟩ ∧
      a.score < (t.get ⟨i, hi⟩).score ∧
      (∀ x ∈ t, x.score ≤ (t.get ⟨i, hi⟩).score) ∧
      ∀ j, ∀ hj : j < t.length, j < i →
        (t.get ⟨j, hj⟩).score < (t.get ⟨i, hi⟩).score := by
  induction t generalizing a with
  | nil => exact Or.inl ⟨rfl, by simp⟩
  | cons x t ih =>
    by_cases hx : a.score < x.score
    · have hfold : (x :: t).foldl (fun best pred =>
          if best.score < pred.score then pred else best) a =
          t.foldl (fun best pred =>
            if best.score < pred.score then pred else best) x := by
        simp [List.foldl_cons, if_pos hx]
      rcases ih x with ⟨heq, hle⟩ | ⟨i, hi, heq, hlt, hle, hfirst⟩
      · refine Or.inr ⟨0, by simp, ?_, ?_, ?_, ?_⟩
        · rw [hfold, heq]; rfl
        · simpa using hx
        · intro y hy
          rcases List.mem_cons.1 hy with hy | hy
          · simp [hy]
          · simpa using hle y hy
        · intro j hj hj0; omega
      · refine Or.inr ⟨i + 1, by simpa using Nat.succ_lt_succ hi, ?_, ?_, ?_, ?_⟩
        · rw [hfold, heq]; simp
        · simpa using hx.trans hlt
        · intro y hy
          rcases List.mem_cons.1 hy with hy | hy
          · simpa [hy] using le_of_lt hlt
          · simpa using hle y hy
        · intro j hj hji
          match j, hj with
          | 0, hj => simpa using hlt
          | j + 1, hj =>
            simpa using hfirst j (by omega) (by omega)
    · have hfold : (x :: t).foldl (fun best pred =>
          if best.score < pred.score then pred else best) a =
          t.foldl (fun best pred =>
            if best.score < pred.score then pred else best) a := by
        simp [List.foldl_cons, if_neg hx]
      rcases ih a with ⟨heq, hle⟩ | ⟨i, hi, heq, hlt, hle, hfirst⟩
      · refine Or.inl ⟨by rw [hfold, heq], ?_⟩
        intro y hy
        rcases List.mem_cons.1 hy with hy | hy
        · simpa [hy] using le_of_not_lt hx
        · exact hle y hy
      · refine Or.inr ⟨i + 1, by simpa using Nat.succ_lt_succ hi, ?_, ?_, ?_, ?_⟩
        · rw [hfold, heq]; simp
        · simpa using hlt
        · intro y hy
          rcases List.mem_cons.1 hy with hy | hy
          · simpa [hy] using (le_of_not_lt hx).trans (le_of_lt hlt)
          · simpa using hle y hy
        · intro j hj hji
          match j, hj with
          | 0, hj => simpa using lt_of_le_of_lt (le_of_not_lt hx) hlt
          | j + 1, hj =>
            simpa using hfirst j (by omega) (by omega)

lemma selectBest_cons (c : Candidate) (l : List Candidate) :
    selectBest (c :: l) =
      l.foldl (fun best pred =>
        if best.score < pred.score then pred else best) c := by
  simp [selectBest, List.foldl_cons]

lemma selectBest_spec (l : List Candidate) (hl : l ≠ []) :
    ∃ i, ∃ hi : i < l.length, selectBest l = l.get ⟨i, hi⟩ ∧
      (∀ c ∈ l, c.score ≤ (selectBest l).score) ∧
      ∀ j, ∀ hj : j < l.length, j < i →
        (l.get ⟨j, hj⟩).score < (l.get ⟨i, hi⟩).score := by
  match l with
  | [] => exact absurd rfl hl
  | c :: t =>
    rw [selectBest_cons]
    rcases foldl_select_spec t c with ⟨heq, hle⟩ | ⟨i, hi, heq, hlt, hle, hfirst⟩
    · refine ⟨0, by simp, by rw [heq]; rfl, ?_, ?_⟩
      · intro y hy
        rw [heq]
        rcases List.mem_cons.1 hy with hy | hy
        · simp [hy]
        · simpa using hle y hy
      · intro j hj hj0; omega
    · refine ⟨i + 1, by simpa using Nat.succ_lt_succ hi, by rw [heq]; simp,
        ?_, ?_⟩
      · intro y hy
        rw [heq]
        rcases List.mem_cons.1 hy with hy | hy
        · simpa [hy] using le_of_lt hlt
        · simpa using hle y hy
      · intro j hj hji
        match j, hj with
        | 0, hj => simpa using hlt
        | j + 1, hj => simpa using hfirst j (by omega) (by omega)

/-- C8: for every pattern with at least two recorded moves, the selection
scan of `predictNextMove` picks a candidate of maximal score from the
produced candidate list (which is in strategy-declaration order), and on a
tie the first-produced one: every earlier candidate scores strictly less. -/
theorem selection_first_max (p : PlayerPattern) (rnd : Fin 2)
    (h2 : 2 ≤ p.totalMoves) :
    ∃ i, ∃ hi : i < (predictions p rnd).length,
      selectBest (predictions p rnd) = (predictions p rnd).get ⟨i, hi⟩ ∧
      (∀ c ∈ predictions p rnd,
        c.score ≤ (selectBest (predictions p rnd)).score) ∧
      ∀ j, ∀ hj : j < (predictions p rnd).length, j < i →
        ((predictions p rnd).get ⟨j, hj⟩).score <
          ((predictions p rnd).get ⟨i, hi⟩).score := by
  refine selectBest_spec _ ?_
  simp [predictions]

/-- Witness for C8 at a concrete pattern: the selected candidate bounds the
score of the frequency candidate, the head of the candidate list. -/
theorem selection_first_max_witness :
    frequencyCandidate
        { frequencies := fun _ => 1, transitions := fun _ _ => 0,
          streaks := fun _ => 1, totalMoves := 2, lastMoves := [rock, paper],
          winRate := 0, randomnessScore := 0 } ∈
      predictions
        { frequencies := fun _ => 1, transitions := fun _ _ => 0,
          streaks := fun _ => 1, totalMoves := 2, lastMoves := [rock, paper],
          winRate := 0, randomnessScore := 0 } 0 ∧
    ∃ i, ∃ hi : i < (predictions
        { frequencies := fun _ => 1, transitions := fun _ _ => 0,
          streaks := fun _ => 1, totalMoves := 2, lastMoves := [rock, paper],
          winRate := 0, randomnessScore := 0 } 0).length,
      selectBest (predictions
        { frequencies := fun _ => 1, transitions := fun _ _ => 0,
          streaks := fun _ => 1, totalMoves := 2, lastMoves := [rock, paper],
          winRate := 0, randomnessScore := 0 } 0) =
        (predictions
          { frequencies := fun _ => 1, transitions := fun _ _ => 0,
            streaks := fun _ => 1, totalMoves := 2, lastMoves := [rock, paper],
            winRate := 0, randomnessScore := 0 } 0).get ⟨i, hi⟩ :=
  ⟨by simp [predictions],
    match selection_first_max _ 0 (by decide) with
    | ⟨i, hi, heq, _, _⟩ => ⟨i, hi, heq⟩⟩

/-- C3: the reported confidence never exceeds 85; above the cold-start
threshold it is exactly `round(winningScore * 100)` clamped at 85, and the
cold-start branch reports 35. -/
theorem confidence_clamped (p : PlayerPattern) (rnd : Fin 2)
    (gemini : Option String) (hwf : p.lastMoves ≠ [] ∨ p.totalMoves < 2) :
    (predictNextMove p rnd gemini).confidence ≤ 85 ∧
    (p.totalMoves < 2 → (predictNextMove p rnd gemini).confidence = 35) ∧
    (¬ p.totalMoves < 2 →
      (predictNextMove p rnd gemini).confidence =
        min (jsRound ((selectBest (predictions p rnd)).score * 100)) 85) := by
  refine ⟨?_, ?_, ?_⟩
  · by_cases h : p.totalMoves < 2
    · simp [predictNextMove, h]
    · cases gemini <;> simp [predictNextMove, h] <;> exact min_le_right _ _
  · intro h
    simp [predictNextMove, h]
  · intro h
    cases gemini <;> simp [predictNextMove, h]

/-- Witness for C3 at a concrete two-move pattern. -/
theorem confidence_clamped_witness :
    (predictNextMove
      { frequencies := fun _ => 1, transitions := fun _ _ => 0,
        streaks := fun _ => 1, totalMoves := 2, lastMoves := [rock, paper],
        winRate := 0, randomnessScore := 0 } 0 none).confidence ≤ 85 :=
  (confidence_clamped
    { frequencies := fun _ => 1, transitions := fun _ _ => 0,
      streaks := fun _ => 1, totalMoves := 2, lastMoves := [rock, paper],
      winRate := 0, randomnessScore := 0 } 0 none
    (Or.inl (by decide))).1

lemma fallbackReason_ne_empty (tag : String) (c l : GameChoice) :
    fallbackReason tag c l ≠ "" := by
  unfold fallbackReason
  split_ifs <;> cases c <;> cases l <;> decide

/-- C4: a failed rationale step (missing key or service error, the `none`
case) still yields a complete analysis with the same prediction, confidence
and pattern type as a successful one, and its reasoning is the non-empty
canned template keyed by the winning pattern-type tag. -/
theorem rationale_fallback (p : PlayerPattern) (rnd : Fin 2) (t : String)
    (hwf : p.lastMoves ≠ [] ∨ p.totalMoves < 2) :
    (predictNextMove p rnd none).prediction =
        (predictNextMove p rnd (some t)).prediction ∧
    (predictNextMove p rnd none).confidence =
        (predictNextMove p rnd (some t)).confidence ∧
    (predictNextMove p rnd none).patternType =
        (predictNextMove p rnd (some t)).patternType ∧
    (predictNextMove p rnd none).reasoning ≠ "" ∧
    (¬ p.totalMoves < 2 →
      (predictNextMove p rnd none).reasoning =
        fallbackReason (selectBest (predictions p rnd)).type
          (selectBest (predictions p rnd)).choice (jsLast p.lastMoves)) := by
  by_cases h : p.totalMoves < 2
  · refine ⟨?_, ?_, ?_, ?_, ?_⟩ <;> simp [predictNextMove, h]
  · refine ⟨?_, ?_, ?_, ?_, ?_⟩ <;> simp [predictNextMove, h]
    exact fallbackReason_ne_empty _ _ _

/-- Witness for C4 at a concrete two-move pattern: the fallback reasoning is
non-empty and the prediction agrees with the service-success run. -/
theorem rationale_fallback_witness :
    (predictNextMove
        { frequencies := fun _ => 1, transitions := fun _ _ => 0,
          streaks := fun _ => 1, totalMoves := 2, lastMoves := [rock, paper],
          winRate := 0, randomnessScore := 0 } 0 none).reasoning ≠ "" :=
  (rationale_fallback
    { frequencies := fun _ => 1, transitions := fun _ _ => 0,
      streaks := fun _ => 1, totalMoves := 2, lastMoves := [rock, paper],
      winRate := 0, randomnessScore := 0 } 0 "service text"
    (Or.inl (by decide))).2.2.2.1

lemma calculateRandomness_only_freq (p q : PlayerPattern)
    (hf : p.frequencies = q.frequencies) (ht : p.totalMoves = q.totalMoves) :
    calculateRandomness p = calculateRandomness q := by
  simp only [calculateRandomness, hf, ht]

lemma randomness_examplePattern : calculateRandomness examplePattern = 100 := by
  have hL3 : (0 : ℝ) < Real.logb 2 3 :=
    Real.logb_pos (by norm_num) (by norm_num)
  unfold calculateRandomness
  rw [if_neg (by decide : ¬ examplePattern.totalMoves = 0)]
  have hfreq : ∀ c, ((examplePattern.frequencies c : ℕ) : ℝ) /
      ((examplePattern.totalMoves : ℕ) : ℝ) = (3 : ℝ)⁻¹ := by
    intro c
    cases c <;> norm_num [examplePattern]
  simp only [GAME_CHOICES, List.foldl, hfreq]
  simp only [if_pos (show (0:ℝ) < (3:ℝ)⁻¹ by norm_num)]
  rw [Real.logb_inv]
  have hsum : ((0 : ℝ) - 3⁻¹ * -Real.logb 2 3 - 3⁻¹ * -Real.logb 2 3 -
      3⁻¹ * -Real.logb 2 3) = Real.logb 2 3 := by ring
  rw [hsum, div_self hL3.ne', jsRoundR]
  rw [Int.floor_eq_iff]
  norm_num

lemma analyzePattern_randomnessScore (moves : List GameMove) :
    (analyzePattern moves).randomnessScore =
      calculateRandomness (analyzePattern moves) :=
  calculateRandomness_only_freq _ _ rfl rfl

lemma analyzePattern_exampleMoves : analyzePattern exampleMoves = examplePattern := by
  apply PlayerPattern.ext
  · funext c; cases c <;> rfl
  · funext a b; cases a <;> cases b <;> rfl
  · funext c; cases c <;> rfl
  · rfl
  · rfl
  · have h1 : (analyzePattern exampleMoves).winRate =
        ((0 : ℕ) : ℚ) / ((6 : ℕ) : ℚ) := rfl
    rw [h1]
    norm_num [examplePattern]
  · rw [analyzePattern_randomnessScore]
    exact (calculateRandomness_only_freq _ examplePattern
      (by funext c; cases c <;> rfl) rfl).trans randomness_examplePattern

lemma predictions_examplePattern (rnd : Fin 2) :
    predictions examplePattern rnd =
      [{ choice := rock, score := 3 / 10, type := "frequency" },
       { choice := rock, score := 1 / 2, type := "sequential" },
       { choice := rock, score := 2 / 5, type := "meta" },
       { choice := rock, score := 3 / 5, type := "sequential" }] := by
  have hfreq : frequencyCandidate examplePattern =
      { choice := rock, score := 3 / 10, type := "frequency" } := by
    simp [frequencyCandidate, examplePattern, GAME_CHOICES]
  have htrans : transitionCandidates examplePattern =
      [{ choice := rock, score := 1 / 2, type := "sequential" }] := by
    rw [transitionCandidates]
    norm_num [examplePattern, jsLast, GAME_CHOICES, List.foldl]
  have hmeta : metaCandidates examplePattern =
      [{ choice := rock, score := 2 / 5, type := "meta" }] := by
    simp [metaCandidates, examplePattern, GAME_CHOICES]
  have hwin : winStayCandidates examplePattern rnd = [] := by
    apply winStayCandidates_ne _ _ (by decide)
    decide
  have hrot : rotationCandidates examplePattern =
      [{ choice := rock, score := 3 / 5, type := "sequential" }] := by
    simp [rotationCandidates, examplePattern, jsSliceLast]
  simp [predictions, hfreq, htrans, hmeta, hwin, hrot]

lemma selectBest_examplePattern (rnd : Fin 2) :
    selectBest (predictions examplePattern rnd) =
      { choice := rock, score := 3 / 5, type := "sequential" } := by
  rw [predictions_examplePattern]
  rw [selectBest]
  norm_num [List.foldl, List.headD]

/-- C2: on the history `[rock, paper, scissors, rock, paper, scissors]` the
rotation strategy contributes the candidate rock at score 0.6, every other
produced candidate scores strictly less, and the prediction is rock with
confidence 60 (for every random index and service outcome). -/
theorem rotation_dominates (rnd : Fin 2) (gemini : Option String) :
    ({ choice := rock, score := 3 / 5, type := "sequential" } : Candidate) ∈
        rotationCandidates (analyzePattern exampleMoves) ∧
    (∀ c ∈ predictions (analyzePattern exampleMoves) rnd,
      c ≠ { choice := rock, score := 3 / 5, type := "sequential" } →
        c.score < 3 / 5) ∧
    (predictNextMove (analyzePattern exampleMoves) rnd gemini).prediction =
        rock ∧
    (predictNextMove (analyzePattern exampleMoves) rnd gemini).confidence =
        60 := by
  rw [analyzePattern_exampleMoves]
  have hsel := selectBest_examplePattern rnd
  have hconf : min (jsRound
      ((selectBest (predictions examplePattern rnd)).score * 100)) 85 = 60 := by
    rw [hsel]
    have : jsRound ((3 / 5 : ℚ) * 100) = 60 := by
      rw [jsRound, Int.floor_eq_iff]
      norm_num
    rw [this]
    norm_num
  refine ⟨?_, ?_, ?_, ?_⟩
  · simp [rotationCandidates, examplePattern, jsSliceLast]
  · intro c hc hne
    rw [predictions_examplePattern] at hc
    simp only [List.mem_cons, List.not_mem_nil, or_false] at hc
    rcases hc with h | h | h | h <;> subst h <;> first
      | exact absurd rfl hne
      | norm_num
  · cases gemini <;>
      simp [predictNextMove, (by decide : ¬ examplePattern.totalMoves < 2),
        hsel]
  · cases gemini <;>
      simp [predictNextMove, (by decide : ¬ examplePattern.totalMoves < 2),
        hconf]

lemma entropy_foldl (g : GameChoice → ℝ) :
    GAME_CHOICES.foldl (fun acc choice =>
      let probability := g choice
      if 0 < probability then acc - probability * Real.logb 2 probability
      else acc) 0 =
    (if 0 < g rock then -(g rock * Real.logb 2 (g rock)) else 0) +
      (if 0 < g paper then -(g paper * Real.logb 2 (g paper)) else 0) +
      (if 0 < g scissors then -(g scissors * Real.logb 2 (g scissors)) else 0) := by
  simp only [GAME_CHOICES, List.foldl]
  split_ifs <;> ring

lemma entropy_term_nonneg (q : ℝ) (hq1 : q ≤ 1) :
    0 ≤ (if 0 < q then -(q * Real.logb 2 q) else 0) := by
  split_ifs with h
  · have hlb : Real.logb 2 q ≤ 0 :=
      (Real.logb_nonpos_iff (by norm_num) h).2 hq1
    nlinarith
  · exact le_refl 0

lemma entropy_term_le (q : ℝ) (hq : 0 ≤ q) :
    (if 0 < q then -(q * Real.logb 2 q) else 0) ≤
      (1 / 3 - q + q * Real.log 3) / Real.log 2 := by
  have hlog2 : (0 : ℝ) < Real.log 2 := Real.log_pos (by norm_num)
  split_ifs with h
  · rw [← Real.log_div_log]
    have h1 : -(q * (Real.log q / Real.log 2)) =
        -(q * Real.log q) / Real.log 2 := by ring
    rw [h1, div_le_div_right hlog2]
    have hinv : (0 : ℝ) < 1 / (3 * q) := by positivity
    have hkey := Real.log_le_sub_one_of_pos hinv
    have hlog : Real.log (1 / (3 * q)) = -(Real.log 3 + Real.log q) := by
      rw [one_div, Real.log_inv, Real.log_mul (by norm_num) (ne_of_gt h)]
    rw [hlog] at hkey
    have hmul := mul_le_mul_of_nonneg_left hkey (le_of_lt h)
    have hq3 : q * (1 / (3 * q) - 1) = 1 / 3 - q := by
      field_simp
      ring
    nlinarith
  · have hq0 : q = 0 := le_antisymm (not_lt.1 h) hq
    subst hq0
    positivity

lemma entropy3_nonneg (g : GameChoice → ℝ) (h1 : ∀ c, g c ≤ 1) :
    0 ≤ (if 0 < g rock then -(g rock * Real.logb 2 (g rock)) else 0) +
      (if 0 < g paper then -(g paper * Real.logb 2 (g paper)) else 0) +
      (if 0 < g scissors then -(g scissors * Real.logb 2 (g scissors)) else 0) := by
  have t1 := entropy_term_nonneg (g rock) (h1 rock)
  have t2 := entropy_term_nonneg (g paper) (h1 paper)
  have t3 := entropy_term_nonneg (g scissors) (h1 scissors)
  linarith

lemma entropy3_le_logb (g : GameChoice → ℝ) (h0 : ∀ c, 0 ≤ g c)
    (hsum : g rock + g paper + g scissors = 1) :
    (if 0 < g rock then -(g rock * Real.logb 2 (g rock)) else 0) +
      (if 0 < g paper then -(g paper * Real.logb 2 (g paper)) else 0) +
      (if 0 < g scissors then -(g scissors * Real.logb 2 (g scissors)) else 0) ≤
      Real.logb 2 3 := by
  have h1 := entropy_term_le (g rock) (h0 rock)
  have h2 := entropy_term_le (g paper) (h0 paper)
  have h3 := entropy_term_le (g scissors) (h0 scissors)
  have hcomb : (1 / 3 - g rock + g rock * Real.log 3) / Real.log 2 +
      (1 / 3 - g paper + g paper * Real.log 3) / Real.log 2 +
      (1 / 3 - g scissors + g scissors * Real.log 3) / Real.log 2 =
      (1 - (g rock + g paper + g scissors) +
        (g rock + g paper + g scissors) * Real.log 3) / Real.log 2 := by
    ring
  have hfin : (1 - (g rock + g paper + g scissors) +
      (g rock + g paper + g scissors) * Real.log 3) / Real.log 2 =
      Real.logb 2 3 := by
    rw [hsum, ← Real.log_div_log]
    norm_num
  linarith

lemma jsRoundR_ratio_bounds (x L : ℝ) (hL : 0 < L) (hx0 : 0 ≤ x)
    (hxL : x ≤ L) :
    0 ≤ jsRoundR (x / L * 100) ∧ jsRoundR (x / L * 100) ≤ 100 := by
  have hr0 : 0 ≤ x / L * 100 := by positivity
  have hr1 : x / L * 100 ≤ 100 := by
    have h := (div_le_one hL).2 hxL
    nlinarith
  constructor
  · exact Int.le_floor.2 (by push_cast; linarith)
  · have hlt : jsRoundR (x / L * 100) < 101 :=
      Int.floor_lt.2 (by push_cast; linarith)
    omega

lemma calculateRandomness_zero_total (p : PlayerPattern)
    (hn : p.totalMoves = 0) : calculateRandomness p = 100 := by
  unfold calculateRandomness
  rw [if_pos hn]

lemma calculateRandomness_bounds (p : PlayerPattern)
    (hsum : p.frequencies rock + p.frequencies paper + p.frequencies scissors
      = p.totalMoves) :
    0 ≤ calculateRandomness p ∧ calculateRandomness p ≤ 100 := by
  by_cases hn : p.totalMoves = 0
  · rw [calculateRandomness_zero_total p hn]
    norm_num
  · have hL3 : (0 : ℝ) < Real.logb 2 3 :=
      Real.logb_pos (by norm_num) (by norm_num)
    have hnR : (0 : ℝ) < (p.totalMoves : ℝ) := by
      exact_mod_cast Nat.pos_of_ne_zero hn
    have h0 : ∀ c, 0 ≤ ((p.frequencies c : ℕ) : ℝ) / (p.totalMoves : ℝ) := by
      intro c; positivity
    have h1 : ∀ c, ((p.frequencies c : ℕ) : ℝ) / (p.totalMoves : ℝ) ≤ 1 := by
      intro c
      rw [div_le_one hnR]
      have hle : p.frequencies c ≤ p.totalMoves := by cases c <;> omega
      exact_mod_cast hle
    have hsumR : ((p.frequencies rock : ℕ) : ℝ) / (p.totalMoves : ℝ) +
        ((p.frequencies paper : ℕ) : ℝ) / (p.totalMoves : ℝ) +
        ((p.frequencies scissors : ℕ) : ℝ) / (p.totalMoves : ℝ) = 1 := by
      rw [div_add_div_same, div_add_div_same]
      rw [show ((p.frequencies rock : ℕ) : ℝ) + (p.frequencies paper : ℕ) +
        (p.frequencies scissors : ℕ) = ((p.totalMoves : ℕ) : ℝ) by
          exact_mod_cast congrArg (Nat.cast : ℕ → ℝ) hsum]
      exact div_self hnR.ne'
    unfold calculateRandomness
    rw [if_neg hn, entropy_foldl]
    exact jsRoundR_ratio_bounds _ _ hL3
      (entropy3_nonneg (fun c => ((p.frequencies c : ℕ) : ℝ) /
        (p.totalMoves : ℝ)) h1)
      (entropy3_le_logb (fun c => ((p.frequencies c : ℕ) : ℝ) /
        (p.totalMoves : ℝ)) h0 hsumR)

lemma calculateRandomness_const (p : PlayerPattern) (c : GameChoice)
    (hn : p.totalMoves ≠ 0) (hc : p.frequencies c = p.totalMoves)
    (ho : ∀ d, d ≠ c → p.frequencies d = 0) :
    calculateRandomness p = 0 := by
  have hnR : ((p.totalMoves : ℕ) : ℝ) ≠ 0 := by
    exact_mod_cast hn
  have hone : ((p.frequencies c : ℕ) : ℝ) / (p.totalMoves : ℝ) = 1 := by
    rw [hc]; exact div_self hnR
  have hzero : ∀ d, d ≠ c →
      ((p.frequencies d : ℕ) : ℝ) / (p.totalMoves : ℝ) = 0 := by
    intro d hd
    rw [ho d hd]
    simp
  unfold calculateRandomness
  rw [if_neg hn, entropy_foldl]
  have hfin : ∀ y : ℝ, y = 0 → jsRoundR (y / Real.logb 2 3 * 100) = 0 := by
    intro y hy
    rw [hy, zero_div, zero_mul, jsRoundR, Int.floor_eq_iff]
    norm_num
  apply hfin
  cases c
  · rw [hone, hzero paper (by decide), hzero scissors (by decide)]
    simp [Real.logb_one]
  · rw [hone, hzero rock (by decide), hzero scissors (by decide)]
    simp [Real.logb_one]
  · rw [hone, hzero rock (by decide), hzero paper (by decide)]
    simp [Real.logb_one]

/-- C6: the randomness score always lies in [0, 100]; it is exactly 100 on
the empty history and exactly 0 on a non-empty all-identical history (the
zero-probability entropy terms being skipped by the positivity guard). -/
theorem randomnessScore_bounds (moves : List GameMove) :
    0 ≤ (analyzePattern moves).randomnessScore ∧
    (analyzePattern moves).randomnessScore ≤ 100 ∧
    (moves = [] → (analyzePattern moves).randomnessScore = 100) ∧
    (moves ≠ [] → (∃ c, ∀ m ∈ moves, m.choice = c) →
      (analyzePattern moves).randomnessScore = 0) := by
  have hfreq : ∀ c, (analyzePattern moves).frequencies c =
      (moves.map (fun m => m.choice)).count c :=
    fun c => calculateFrequencies_count _ c
  have hsum : (analyzePattern moves).frequencies rock +
      (analyzePattern moves).frequencies paper +
      (analyzePattern moves).frequencies scissors =
      (analyzePattern moves).totalMoves := by
    rw [hfreq, hfreq, hfreq]
    show _ = moves.length
    rw [count_three_eq_length, List.length_map]
  have hrs : (analyzePattern moves).randomnessScore =
      calculateRandomness (analyzePattern moves) :=
    analyzePattern_randomnessScore moves
  obtain ⟨hb0, hb1⟩ := calculateRandomness_bounds (analyzePattern moves) hsum
  refine ⟨by rw [hrs]; exact hb0, by rw [hrs]; exact hb1, ?_, ?_⟩
  · intro h
    subst h
    rw [hrs]
    exact calculateRandomness_zero_total _ rfl
  · rintro hne ⟨c, hall⟩
    rw [hrs]
    apply calculateRandomness_const _ c
    · show moves.length ≠ 0
      simpa [List.length_eq_zero] using hne
    · rw [hfreq]
      show _ = moves.length
      rw [← List.length_map moves (fun m => m.choice)]
      refine List.count_eq_length.2 ?_
      intro b hb
      obtain ⟨m, hm, rfl⟩ := List.mem_map.1 hb
      exact (hall m hm).symm
    · intro d hd
      rw [hfreq]
      refine List.count_eq_zero.2 ?_
      intro hmem
      obtain ⟨m, hm, hch⟩ := List.mem_map.1 hmem
      exact hd (by rw [← hch, hall m hm])

/-- Witness for C6: the two-move all-rock history scores exactly 0. -/
theorem randomnessScore_bounds_witness :
    (analyzePattern [exampleMove rock, exampleMove rock]).randomnessScore
      = 0 :=
  (randomnessScore_bounds [exampleMove rock, exampleMove rock]).2.2.2
    (by decide) ⟨rock, by decide⟩

end RPS
